import Mathlib

/-!
Shallow embedding of `src/metadata_fs.py` (class `MetadataFS`), an in-memory
FUSE filesystem with extended-attribute support.

Python dictionaries are modelled as association lists (`Dict`) that keep
insertion order, matching CPython dict semantics: lookup finds the entry,
update replaces the value in place, fresh keys are appended at the end, and
deletion removes the entry.  Byte strings are lists of naturals.  A raw
dictionary access that would raise `KeyError` in Python is modelled by the
`FsError.KeyError` error kind; `FuseOSError(...)` raises map to the
corresponding errno constructors.
-/

set_option autoImplicit false

/-- Byte strings (Python `bytes`) as lists of byte values. -/
abbrev Bytes := List Nat

/-- Python `dict` keyed by strings, as an insertion-ordered association list. -/
abbrev Dict (α : Type) := List (String × α)

/-- Dictionary lookup: `d[k]` / `k in d`, returning `none` when the key is absent. -/
def dlookup {α : Type} : Dict α → String → Option α
  | [], _ => none
  | (k, v) :: rest, key => if key = k then some v else dlookup rest key

/-- Python `key in dict` membership test. -/
def dcontains {α : Type} (d : Dict α) (k : String) : Bool :=
  (dlookup d k).isSome

/-- Dictionary assignment `d[k] = v`: replaces in place when the key exists
(keeping insertion order, as CPython does), otherwise appends the new pair. -/
def dinsert {α : Type} (d : Dict α) (k : String) (v : α) : Dict α :=
  if (dlookup d k).isSome then
    d.map fun kv => if kv.1 = k then (k, v) else kv
  else
    d ++ [(k, v)]

/-- Dictionary deletion `d.pop(k)` / `del d[k]` (the state part; the caller
checks presence separately to model the `KeyError` raise). -/
def derase {α : Type} (d : Dict α) (k : String) : Dict α :=
  d.filter fun kv => kv.1 ≠ k

/-- Error kinds surfaced by the operations.  `ENOENT` is the spec's NotFound,
`ENOATTR` its NoAttributeSupport, `ENODATA` its AttributeNotFound; `KeyError`
models an uncaught Python dictionary lookup failure (not a `FuseOSError`). -/
inductive FsError where
  | ENOENT
  | ENOATTR
  | ENODATA
  | KeyError
  deriving DecidableEq

/-- The metadata record stored in `self.files[path]` (spec: AttributeRecord).
The root directory's record in the source has no `st_size` key; it is modelled
here as `st_size = 0` (no operation ever reads a directory's size). -/
structure AttrRecord where
  st_mode : Nat
  st_nlink : Nat
  st_size : Nat
  st_ctime : Nat
  st_mtime : Nat
  st_atime : Nat
  deriving DecidableEq

/-- The whole store: `files` (MetadataTable), `data` (DataTable),
`xattrs` (XattrTable) and the descriptor counter `fd`. -/
structure MetadataFS where
  files : Dict AttrRecord
  data : Dict Bytes
  xattrs : Dict (Dict Bytes)
  fd : Nat
  deriving DecidableEq

/-- Stat constant `S_IFDIR` (directory file-type bit). -/
def S_IFDIR : Nat := 0o40000

/-- Stat constant `S_IFREG` (regular-file file-type bit). -/
def S_IFREG : Nat := 0o100000

/-- Bytes of an ASCII string literal (Python `b'...'`). -/
def bytesOfString (str : String) : Bytes := str.toList.map Char.toNat

/-- Root directory record created by `__init__`. -/
def rootRecord (now : Nat) : AttrRecord :=
  { st_mode := Nat.lor S_IFDIR 0o755, st_nlink := 2, st_size := 0,
    st_ctime := now, st_mtime := now, st_atime := now }

/-- Content of the sample file `/exemplo.txt` seeded by `__init__`. -/
def sampleContent : Bytes := bytesOfString "This file has metadata!\n"

/-- Metadata record of the sample file seeded by `__init__`. -/
def sampleRecord (now : Nat) : AttrRecord :=
  { st_mode := Nat.lor S_IFREG 0o644, st_nlink := 1, st_size := sampleContent.length,
    st_ctime := now, st_mtime := now, st_atime := now }

/-- Sample extended attributes of `/exemplo.txt` seeded by `__init__`. -/
def sampleXattrs : Dict Bytes :=
  [("user.category", bytesOfString "documents"),
   ("user.tags", bytesOfString "sample,python"),
   ("user.classification", bytesOfString "important")]

/-- `MetadataFS.__init__`: root directory plus the sample file, `fd = 0`.
The wall-clock `time()` value is passed in as `now`. -/
def init (now : Nat) : MetadataFS :=
  { files := [("/", rootRecord now), ("/exemplo.txt", sampleRecord now)],
    data := [("/exemplo.txt", sampleContent)],
    xattrs := [("/", []), ("/exemplo.txt", sampleXattrs)],
    fd := 0 }

/-- `getattr`: `ENOENT` when the path has no metadata record, else the record. -/
def getattr (s : MetadataFS) (path : String) : Except FsError AttrRecord :=
  match dlookup s.files path with
  | none => Except.error FsError.ENOENT
  | some r => Except.ok r

/-- `readdir`: `['.', '..']` plus `x[1:]` for every key of `files` other than
`'/'`; the `path` and `fh` arguments are ignored by the source. -/
def readdir (s : MetadataFS) (path : String) (fh : Nat) : List String :=
  [".", ".."] ++ ((s.files.map Prod.fst).filter (fun x => x ≠ "/")).map (fun x => x.drop 1)

/-- `read`: the slice `self.data[path][offset : offset + size]`, i.e. drop
`offset` then take `size`.  A path with no data blob raises `KeyError`
(uncaught in the source).  The state is returned unchanged. -/
def read_fs (s : MetadataFS) (path : String) (size offset fh : Nat) :
    MetadataFS × Except FsError Bytes :=
  match dlookup s.data path with
  | none => (s, Except.error FsError.KeyError)
  | some blob => (s, Except.ok ((blob.drop offset).take size))

/-- `create`: unconditionally (re)inserts a fresh regular-file record with
`st_size = 0`, an empty data blob and an empty xattr set, increments `fd`
and returns it. -/
def create (s : MetadataFS) (path : String) (mode : Nat) (now : Nat) :
    MetadataFS × Nat :=
  ({ s with
      files := dinsert s.files path
        { st_mode := Nat.lor S_IFREG mode, st_nlink := 1, st_size := 0,
          st_ctime := now, st_mtime := now, st_atime := now },
      data := dinsert s.data path [],
      xattrs := dinsert s.xattrs path [],
      fd := s.fd + 1 },
   s.fd + 1)

/-- `unlink`: three raw `pop` calls in sequence (`files`, then `data`, then
`xattrs`).  Each missing key raises `KeyError`, leaving the mutations already
performed by the earlier pops in place. -/
def unlink (s : MetadataFS) (path : String) : MetadataFS × Except FsError Unit :=
  if dcontains s.files path then
    if dcontains s.data path then
      if dcontains s.xattrs path then
        ({ s with files := derase s.files path, data := derase s.data path,
                  xattrs := derase s.xattrs path }, Except.ok ())
      else
        ({ s with files := derase s.files path, data := derase s.data path },
         Except.error FsError.KeyError)
    else
      ({ s with files := derase s.files path }, Except.error FsError.KeyError)
  else
    (s, Except.error FsError.KeyError)

/-- `open`: increments `fd` and returns it; `path` and `flags` are unused. -/
def open_fs (s : MetadataFS) (path : String) (flags : Nat) : MetadataFS × Nat :=
  ({ s with fd := s.fd + 1 }, s.fd + 1)

/-- `truncate`: `self.data[path] = self.data[path][:length]` then
`self.files[path]['st_size'] = length`.  Either raw lookup may raise
`KeyError`; the blob assignment precedes the metadata lookup. -/
def truncate (s : MetadataFS) (path : String) (length : Nat) :
    MetadataFS × Except FsError Unit :=
  match dlookup s.data path with
  | none => (s, Except.error FsError.KeyError)
  | some blob =>
    match dlookup s.files path with
    | none =>
      ({ s with data := dinsert s.data path (blob.take length) },
       Except.error FsError.KeyError)
    | some r =>
      ({ s with data := dinsert s.data path (blob.take length),
                files := dinsert s.files path { r with st_size := length } },
       Except.ok ())

/-- `write`: `self.data[path] = self.data[path][:offset] + data`, then
`self.files[path]['st_size'] = len(self.data[path])`, returning `len(data)`.
Raw lookups may raise `KeyError`; the blob assignment precedes the metadata
lookup. -/
def write (s : MetadataFS) (path : String) (data : Bytes) (offset fh : Nat) :
    MetadataFS × Except FsError Nat :=
  match dlookup s.data path with
  | none => (s, Except.error FsError.KeyError)
  | some blob =>
    let newBlob := blob.take offset ++ data
    match dlookup s.files path with
    | none =>
      ({ s with data := dinsert s.data path newBlob },
       Except.error FsError.KeyError)
    | some r =>
      ({ s with data := dinsert s.data path newBlob,
                files := dinsert s.files path { r with st_size := newBlob.length } },
       Except.ok data.length)

/-- `getxattr`: `ENOATTR` when the path has no xattr set, `ENODATA` when the
name is absent from the set, otherwise the stored value. -/
def getxattr (s : MetadataFS) (path name : String) : Except FsError Bytes :=
  match dlookup s.xattrs path with
  | none => Except.error FsError.ENOATTR
  | some attrs =>
    match dlookup attrs name with
    | some v => Except.ok v
    | none => Except.error FsError.ENODATA

/-- `setxattr`: `ENOATTR` when the path has no xattr set, otherwise inserts or
overwrites `name -> value`; `options` is accepted but ignored. -/
def setxattr (s : MetadataFS) (path name : String) (value : Bytes) (options : Nat) :
    MetadataFS × Except FsError Unit :=
  match dlookup s.xattrs path with
  | none => (s, Except.error FsError.ENOATTR)
  | some attrs =>
    ({ s with xattrs := dinsert s.xattrs path (dinsert attrs name value) },
     Except.ok ())

/-- `listxattr`: `ENOATTR` when the path has no xattr set, else all names. -/
def listxattr (s : MetadataFS) (path : String) : Except FsError (List String) :=
  match dlookup s.xattrs path with
  | none => Except.error FsError.ENOATTR
  | some attrs => Except.ok (attrs.map Prod.fst)

/-- `removexattr`: `ENOATTR` when the path has no xattr set, `ENODATA` when
the name is absent, otherwise deletes the entry. -/
def removexattr (s : MetadataFS) (path name : String) :
    MetadataFS × Except FsError Unit :=
  match dlookup s.xattrs path with
  | none => (s, Except.error FsError.ENOATTR)
  | some attrs =>
    match dlookup attrs name with
    | none => (s, Except.error FsError.ENODATA)
    | some _ =>
      ({ s with xattrs := dinsert s.xattrs path (derase attrs name) },
       Except.ok ())

/-- One filesystem operation invocation with its arguments (the wall-clock
value consumed by `create` is part of the event). -/
inductive Op where
  | getattr (path : String)
  | readdir (path : String) (fh : Nat)
  | read (path : String) (size offset fh : Nat)
  | create (path : String) (mode now : Nat)
  | unlink (path : String)
  | open_fs (path : String) (flags : Nat)
  | truncate (path : String) (length : Nat)
  | write (path : String) (data : Bytes) (offset fh : Nat)
  | getxattr (path name : String)
  | setxattr (path name : String) (value : Bytes) (options : Nat)
  | listxattr (path : String)
  | removexattr (path name : String)

/-- State transition of one operation (pure operations leave the state as is). -/
def applyOp (s : MetadataFS) : Op → MetadataFS
  | Op.getattr _ => s
  | Op.readdir _ _ => s
  | Op.read p sz off fh => (read_fs s p sz off fh).1
  | Op.create p m now => (create s p m now).1
  | Op.unlink p => (unlink s p).1
  | Op.open_fs p fl => (open_fs s p fl).1
  | Op.truncate p len => (truncate s p len).1
  | Op.write p d off fh => (write s p d off fh).1
  | Op.getxattr _ _ => s
  | Op.setxattr p n v o => (setxattr s p n v o).1
  | Op.listxattr _ => s
  | Op.removexattr p n => (removexattr s p n).1

/-- States reachable from `__init__` by any sequence of operations. -/
inductive Reachable : MetadataFS → Prop where
  | base (now : Nat) : Reachable (init now)
  | step {s : MetadataFS} (op : Op) : Reachable s → Reachable (applyOp s op)

/-- The spec's size invariant, weakened to the inequality the code actually
maintains: every path with both a data blob and a metadata record has
`st_size` at least the blob length. -/
def SizeInv (s : MetadataFS) : Prop :=
  ∀ p blob r, dlookup s.data p = some blob → dlookup s.files p = some r →
    blob.length ≤ r.st_size

theorem dlookup_nil {α : Type} (key : String) : dlookup ([] : Dict α) key = none := rfl

theorem dlookup_cons {α : Type} (k : String) (v : α) (rest : Dict α) (key : String) :
    dlookup ((k, v) :: rest) key = if key = k then some v else dlookup rest key := rfl

theorem dlookup_append {α : Type} (d l : Dict α) (key : String) :
    dlookup (d ++ l) key =
      match dlookup d key with
      | some v => some v
      | none => dlookup l key := by
  induction d with
  | nil => simp [dlookup]
  | cons kv rest ih =>
    obtain ⟨k, v⟩ := kv
    by_cases hk : key = k
    · simp [dlookup_cons, hk]
    · simp [dlookup_cons, hk, ih]

theorem dlookup_replace_ne {α : Type} (d : Dict α) (k key : String) (v : α)
    (hne : key ≠ k) :
    dlookup (d.map fun kv => if kv.1 = k then (k, v) else kv) key = dlookup d key := by
  induction d with
  | nil => rfl
  | cons kv rest ih =>
    obtain ⟨k1, v1⟩ := kv
    by_cases h1 : k1 = k
    · subst h1
      rw [List.map_cons,
        show (if ((k1, v1).1 = k1) then (k1, v) else (k1, v1)) = (k1, v) from if_pos rfl,
        dlookup_cons, dlookup_cons, if_neg hne, if_neg hne, ih]
    · simp only [List.map_cons, if_neg h1, dlookup_cons]
      by_cases hk1 : key = k1
      · simp [hk1]
      · simp [hk1, ih]

theorem dlookup_replace_self {α : Type} (d : Dict α) (k : String) (v : α)
    (hs : (dlookup d k).isSome = true) :
    dlookup (d.map fun kv => if kv.1 = k then (k, v) else kv) k = some v := by
  induction d with
  | nil => simp [dlookup] at hs
  | cons kv rest ih =>
    obtain ⟨k1, v1⟩ := kv
    by_cases h1 : k1 = k
    · subst h1
      simp [List.map_cons, dlookup_cons]
    · have hk : k ≠ k1 := fun h => h1 h.symm
      rw [dlookup_cons, if_neg hk] at hs
      simp only [List.map_cons, if_neg h1, dlookup_cons, if_neg hk]
      exact ih hs

theorem dlookup_dinsert {α : Type} (d : Dict α) (k : String) (v : α) (key : String) :
    dlookup (dinsert d k v) key = if key = k then some v else dlookup d key := by
  unfold dinsert
  by_cases hs : (dlookup d k).isSome = true
  · rw [if_pos hs]
    by_cases hk : key = k
    · subst hk
      rw [if_pos rfl, dlookup_replace_self d key v hs]
    · rw [if_neg hk, dlookup_replace_ne d k key v hk]
  · rw [if_neg hs, dlookup_append]
    by_cases hk : key = k
    · subst hk
      have hnone : dlookup d key = none := by
        cases h : dlookup d key with
        | none => rfl
        | some w => exact absurd (by simp [h]) hs
      simp [hnone, dlookup_cons]
    · cases h : dlookup d key with
      | none => simp [dlookup_cons, dlookup_nil, hk]
      | some w => simp [h, hk]

theorem dlookup_derase {α : Type} (d : Dict α) (k key : String) :
    dlookup (derase d k) key = if key = k then none else dlookup d key := by
  induction d with
  | nil => simp [derase, dlookup]
  | cons kv rest ih =>
    obtain ⟨k1, v1⟩ := kv
    by_cases h1 : k1 = k
    · subst h1
      have : derase ((k1, v1) :: rest) k1 = derase rest k1 := by
        simp [derase, List.filter_cons]
      rw [this, ih, dlookup_cons]
      by_cases hk : key = k1
      · simp [hk]
      · simp [hk]
    · have : derase ((k1, v1) :: rest) k = (k1, v1) :: derase rest k := by
        simp [derase, List.filter_cons, h1]
      rw [this, dlookup_cons, dlookup_cons, ih]
      by_cases hk : key = k1
      · subst hk
        rw [if_pos rfl, if_neg h1, if_pos rfl]
      · simp [hk]

theorem sizeInv_init (now : Nat) : SizeInv (init now) := by
  intro p blob r h1 h2
  simp only [init] at h1 h2
  rw [dlookup_cons] at h1 h2
  by_cases hp : p = "/exemplo.txt"
  · subst hp
    rw [if_pos rfl] at h1
    rw [if_neg (by decide), dlookup_cons, if_pos rfl] at h2
    injection h1 with h1
    injection h2 with h2
    subst h1
    subst h2
    simp [sampleRecord]
  · rw [if_neg hp, dlookup_nil] at h1
    exact absurd h1 (by simp)

theorem sizeInv_read (s : MetadataFS) (p : String) (sz off fh : Nat) (h : SizeInv s) :
    SizeInv (read_fs s p sz off fh).1 := by
  cases hx : dlookup s.data p with
  | none => simpa [read_fs, hx] using h
  | some blob => simpa [read_fs, hx] using h

theorem sizeInv_create (s : MetadataFS) (p : String) (m now : Nat) (h : SizeInv s) :
    SizeInv (create s p m now).1 := by
  intro q blob r h1 h2
  simp only [create] at h1 h2
  rw [dlookup_dinsert] at h1 h2
  by_cases hq : q = p
  · rw [if_pos hq] at h1 h2
    injection h1 with h1
    injection h2 with h2
    subst h1
    subst h2
    simp
  · rw [if_neg hq] at h1 h2
    exact h q blob r h1 h2

theorem sizeInv_write (s : MetadataFS) (p : String) (d : Bytes) (off fh : Nat)
    (h : SizeInv s) : SizeInv (write s p d off fh).1 := by
  cases hx : dlookup s.data p with
  | none => simpa [write, hx] using h
  | some blob =>
    cases hf : dlookup s.files p with
    | none =>
      intro q qb qr h1 h2
      simp only [write, hx, hf] at h1 h2
      rw [dlookup_dinsert] at h1
      by_cases hq : q = p
      · subst hq
        rw [hf] at h2
        exact absurd h2 (by simp)
      · rw [if_neg hq] at h1
        exact h q qb qr h1 h2
    | some r =>
      intro q qb qr h1 h2
      simp only [write, hx, hf] at h1 h2
      rw [dlookup_dinsert] at h1 h2
      by_cases hq : q = p
      · rw [if_pos hq] at h1 h2
        injection h1 with h1
        injection h2 with h2
        subst h1
        subst h2
        simp
      · rw [if_neg hq] at h1 h2
        exact h q qb qr h1 h2

theorem sizeInv_truncate (s : MetadataFS) (p : String) (len : Nat)
    (h : SizeInv s) : SizeInv (truncate s p len).1 := by
  cases hx : dlookup s.data p with
  | none => simpa [truncate, hx] using h
  | some blob =>
    cases hf : dlookup s.files p with
    | none =>
      intro q qb qr h1 h2
      simp only [truncate, hx, hf] at h1 h2
      rw [dlookup_dinsert] at h1
      by_cases hq : q = p
      · subst hq
        rw [hf] at h2
        exact absurd h2 (by simp)
      · rw [if_neg hq] at h1
        exact h q qb qr h1 h2
    | some r =>
      intro q qb qr h1 h2
      simp only [truncate, hx, hf] at h1 h2
      rw [dlookup_dinsert] at h1 h2
      by_cases hq : q = p
      · rw [if_pos hq] at h1 h2
        injection h1 with h1
        injection h2 with h2
        subst h1
        subst h2
        simp [List.length_take]
      · rw [if_neg hq] at h1 h2
        exact h q qb qr h1 h2

theorem sizeInv_unlink (s : MetadataFS) (p : String) (h : SizeInv s) :
    SizeInv (unlink s p).1 := by
  intro q qb qr h1 h2
  by_cases hq : q = p
  · subst hq
    by_cases c1 : dcontains s.files q
    · by_cases c2 : dcontains s.data q
      · by_cases c3 : dcontains s.xattrs q
        · simp [unlink, c1, c2, c3, dlookup_derase] at h1
        · simp [unlink, c1, c2, c3, dlookup_derase] at h1
      · simp [unlink, c1, c2, dlookup_derase] at h2
    · simp [unlink, c1] at h1 h2
      exact h q qb qr h1 h2
  · have hfq : dlookup (unlink s p).1.files q = dlookup s.files q := by
      by_cases c1 : dcontains s.files p <;> by_cases c2 : dcontains s.data p <;>
        by_cases c3 : dcontains s.xattrs p <;>
        simp [unlink, c1, c2, c3, dlookup_derase, hq]
    have hdq : dlookup (unlink s p).1.data q = dlookup s.data q := by
      by_cases c1 : dcontains s.files p <;> by_cases c2 : dcontains s.data p <;>
        by_cases c3 : dcontains s.xattrs p <;>
        simp [unlink, c1, c2, c3, dlookup_derase, hq]
    rw [hdq] at h1
    rw [hfq] at h2
    exact h q qb qr h1 h2

theorem sizeInv_open (s : MetadataFS) (p : String) (fl : Nat) (h : SizeInv s) :
    SizeInv (open_fs s p fl).1 := by
  intro q qb qr h1 h2
  simp only [open_fs] at h1 h2
  exact h q qb qr h1 h2

theorem sizeInv_setxattr (s : MetadataFS) (p n : String) (v : Bytes) (o : Nat)
    (h : SizeInv s) : SizeInv (setxattr s p n v o).1 := by
  cases hx : dlookup s.xattrs p with
  | none => simpa [setxattr, hx] using h
  | some attrs =>
    intro q qb qr h1 h2
    simp only [setxattr, hx] at h1 h2
    exact h q qb qr h1 h2

theorem sizeInv_removexattr (s : MetadataFS) (p n : String) (h : SizeInv s) :
    SizeInv (removexattr s p n).1 := by
  cases hx : dlookup s.xattrs p with
  | none => simpa [removexattr, hx] using h
  | some attrs =>
    cases ha : dlookup attrs n with
    | none => simpa [removexattr, hx, ha] using h
    | some v =>
      intro q qb qr h1 h2
      simp only [removexattr, hx, ha] at h1 h2
      exact h q qb qr h1 h2

theorem sizeInv_applyOp (s : MetadataFS) (op : Op) (h : SizeInv s) :
    SizeInv (applyOp s op) := by
  cases op with
  | getattr p => exact h
  | readdir p fh => exact h
  | read p sz off fh => exact sizeInv_read s p sz off fh h
  | create p m now => exact sizeInv_create s p m now h
  | unlink p => exact sizeInv_unlink s p h
  | open_fs p fl => exact sizeInv_open s p fl h
  | truncate p len => exact sizeInv_truncate s p len h
  | write p d off fh => exact sizeInv_write s p d off fh h
  | getxattr p n => exact h
  | setxattr p n v o => exact sizeInv_setxattr s p n v o h
  | listxattr p => exact h
  | removexattr p n => exact sizeInv_removexattr s p n h

/-- C1 (counterexample): the claimed invariant "st_size equals the DataBlob
length for every path in the DataTable after any sequence of operations" is
false: from the initial state, `truncate("/exemplo.txt", 100)` leaves the
24-byte blob unchanged but sets `st_size` to 100. -/
theorem size_eq_invariant_cex :
    ¬ (∀ s, Reachable s → ∀ p blob r, dlookup s.data p = some blob →
        dlookup s.files p = some r → r.st_size = blob.length) := by
  intro hcl
  have hreach : Reachable (applyOp (init 0) (Op.truncate "/exemplo.txt" 100)) :=
    Reachable.step (Op.truncate "/exemplo.txt" 100) (Reachable.base 0)
  have hval := hcl _ hreach "/exemplo.txt" sampleContent
      { sampleRecord 0 with st_size := 100 } (by decide) (by decide)
  exact absurd hval (by decide)

/-- C1 (amended): in every reachable state, every path that has both a data
blob and a metadata record satisfies `blob.length ≤ st_size`.  Equality can be
broken only by `truncate` with a length exceeding the current blob length,
which stores the requested length while the blob stays at its shorter
content. -/
theorem sizeInv_reachable (s : MetadataFS) (h : Reachable s) : SizeInv s := by
  induction h with
  | base now => exact sizeInv_init now
  | step op hs ih => exact sizeInv_applyOp _ op ih

/-- C1 (witness): the amended invariant instantiated in the initial state at
the sample file. -/
theorem sizeInv_reachable_witness : sampleContent.length ≤ (sampleRecord 0).st_size :=
  sizeInv_reachable (init 0) (Reachable.base 0) "/exemplo.txt" sampleContent
    (sampleRecord 0) rfl rfl

/-- C2 (counterexample): the claimed root invariant is not preserved by every
operation: `unlink("/")` pops the root's metadata record (the call then fails
with `KeyError` on the DataTable pop), so `"/"` is removable from the
MetadataTable. -/
theorem root_invariant_cex :
    ¬ (∀ s, Reachable s → (dlookup s.files "/").isSome = true ∧
        (dlookup s.xattrs "/").isSome = true ∧ dlookup s.data "/" = none) := by
  intro hcl
  have hreach : Reachable (applyOp (init 0) (Op.unlink "/")) :=
    Reachable.step (Op.unlink "/") (Reachable.base 0)
  have hval := (hcl _ hreach).1
  exact absurd hval (by decide)

/-- C2 (amended): at initialization the root `"/"` is present in the
MetadataTable and the XattrTable and absent from the DataTable, but it is not
protected afterwards: `unlink("/")` removes its metadata record and then
fails with `KeyError` (on the DataTable pop), leaving its xattr entry in
place. -/
theorem root_init_unlink_spec (now : Nat) :
    dlookup (init now).files "/" = some (rootRecord now) ∧
    dlookup (init now).xattrs "/" = some [] ∧
    dlookup (init now).data "/" = none ∧
    dlookup ((unlink (init now) "/").1).files "/" = none ∧
    (unlink (init now) "/").2 = Except.error FsError.KeyError ∧
    dlookup ((unlink (init now) "/").1).xattrs "/" = some [] :=
  ⟨rfl, rfl, rfl, rfl, rfl, rfl⟩

/-- C3: for a path with blob `blob` and a metadata record, `write(path, d,
offset)` replaces the blob with `blob[:offset] ++ d` (the old tail is
discarded), sets `st_size` to the new blob length, and returns `len(d)`. -/
theorem write_spec (s : MetadataFS) (p : String) (blob : Bytes) (r : AttrRecord)
    (d : Bytes) (off fh : Nat)
    (hd : dlookup s.data p = some blob) (hf : dlookup s.files p = some r) :
    dlookup (write s p d off fh).1.data p = some (blob.take off ++ d) ∧
    (dlookup (write s p d off fh).1.files p).map AttrRecord.st_size =
      some (blob.take off ++ d).length ∧
    (write s p d off fh).2 = Except.ok d.length := by
  simp [write, hd, hf, dlookup_dinsert]

/-- C3 (witness): writing `"xy"` at offset 1 into the sample file. -/
theorem write_spec_witness :
    dlookup (write (init 0) "/exemplo.txt" (bytesOfString "xy") 1 0).1.data "/exemplo.txt" =
      some (sampleContent.take 1 ++ bytesOfString "xy") ∧
    (dlookup (write (init 0) "/exemplo.txt" (bytesOfString "xy") 1 0).1.files
        "/exemplo.txt").map AttrRecord.st_size =
      some (sampleContent.take 1 ++ bytesOfString "xy").length ∧
    (write (init 0) "/exemplo.txt" (bytesOfString "xy") 1 0).2 =
      Except.ok (bytesOfString "xy").length :=
  write_spec (init 0) "/exemplo.txt" sampleContent (sampleRecord 0)
    (bytesOfString "xy") 1 0 rfl rfl

/-- C4 (counterexample): `truncate` does not set `st_size` to the new blob
length: `truncate("/exemplo.txt", 100)` on the 24-byte sample file leaves a
24-byte blob but stores `st_size = 100`. -/
theorem truncate_size_cex :
    ¬ (∀ (s : MetadataFS) (p : String) (blob : Bytes) (r : AttrRecord) (len : Nat),
        dlookup s.data p = some blob → dlookup s.files p = some r →
        (dlookup (truncate s p len).1.files p).map AttrRecord.st_size =
          some (blob.take len).length) := by
  intro hcl
  have h := hcl (init 0) "/exemplo.txt" sampleContent (sampleRecord 0) 100 rfl rfl
  exact absurd h (by decide)

/-- C4 (amended): `truncate(path, length)` replaces the blob with its first
`length` bytes (no zero-padding) and sets `st_size` to the requested
`length` — which equals the new blob length only when `length` does not
exceed the current size. -/
theorem truncate_spec (s : MetadataFS) (p : String) (blob : Bytes) (r : AttrRecord)
    (len : Nat)
    (hd : dlookup s.data p = some blob) (hf : dlookup s.files p = some r) :
    dlookup (truncate s p len).1.data p = some (blob.take len) ∧
    (dlookup (truncate s p len).1.files p).map AttrRecord.st_size = some len ∧
    (truncate s p len).2 = Except.ok () := by
  simp [truncate, hd, hf, dlookup_dinsert]

/-- C4 (witness): truncating the 24-byte sample file to length 100. -/
theorem truncate_spec_witness :
    dlookup (truncate (init 0) "/exemplo.txt" 100).1.data "/exemplo.txt" =
      some (sampleContent.take 100) ∧
    (dlookup (truncate (init 0) "/exemplo.txt" 100).1.files "/exemplo.txt").map
      AttrRecord.st_size = some 100 ∧
    (truncate (init 0) "/exemplo.txt" 100).2 = Except.ok () :=
  truncate_spec (init 0) "/exemplo.txt" sampleContent (sampleRecord 0) 100 rfl rfl

/-- C5 (counterexample): `unlink` on a path with no metadata record does not
fail with the NotFound kind (`ENOENT`): it raises an uncaught `KeyError` from
the raw dictionary pop. -/
theorem unlink_error_kind_cex :
    ¬ (∀ (s : MetadataFS) (p : String), dlookup s.files p = none →
        (unlink s p).2 = Except.error FsError.ENOENT) := by
  intro hcl
  have h := hcl (init 0) "/nosuch" rfl
  rw [show (unlink (init 0) "/nosuch").2 = Except.error FsError.KeyError from rfl] at h
  injection h with h2
  exact absurd h2 (by decide)

/-- C5 (amended): when the path is present in all three tables `unlink`
removes its entries from all three together and succeeds; when the metadata
entry is absent it fails with an uncaught `KeyError` (not the NotFound error
kind) and mutates nothing. -/
theorem unlink_spec (s : MetadataFS) (p : String) :
    (∀ fr db xa, dlookup s.files p = some fr → dlookup s.data p = some db →
      dlookup s.xattrs p = some xa →
      unlink s p = ({ s with files := derase s.files p,
                             data := derase s.data p,
                             xattrs := derase s.xattrs p }, Except.ok ())) ∧
    (dlookup s.files p = none → unlink s p = (s, Except.error FsError.KeyError)) := by
  constructor
  · intro fr db xa h1 h2 h3
    simp [unlink, dcontains, h1, h2, h3]
  · intro h1
    simp [unlink, dcontains, h1]

/-- C5 (witness): unlinking the sample file removes all three entries;
unlinking an absent path fails with `KeyError` and leaves the state intact. -/
theorem unlink_spec_witness :
    unlink (init 0) "/exemplo.txt" =
      ({ init 0 with files := derase (init 0).files "/exemplo.txt",
                     data := derase (init 0).data "/exemplo.txt",
                     xattrs := derase (init 0).xattrs "/exemplo.txt" }, Except.ok ()) ∧
    unlink (init 0) "/nosuch" = (init 0, Except.error FsError.KeyError) :=
  ⟨(unlink_spec (init 0) "/exemplo.txt").1 (sampleRecord 0) sampleContent
      sampleXattrs rfl rfl rfl,
   (unlink_spec (init 0) "/nosuch").2 rfl⟩

/-- C6: `create(path, mode)` then `write(path, b, 0)` then
`read(path, len(b), 0)` returns exactly `b`, for every starting state, path,
mode and byte string. -/
theorem create_write_read_roundtrip (s : MetadataFS) (p : String)
    (m now fh1 fh2 : Nat) (b : Bytes) :
    (read_fs (write (create s p m now).1 p b 0 fh1).1 p b.length 0 fh2).2 =
      Except.ok b := by
  simp [create, write, read_fs, dlookup_dinsert, List.take_length]

/-- C7: for a path with an xattr set, `setxattr(p, n, v, o)` followed by
`getxattr(p, n)` returns `v`, and `removexattr(p, n)` followed by
`getxattr(p, n)` fails with `ENODATA` (AttributeNotFound). -/
theorem xattr_set_get_remove (s : MetadataFS) (p n : String) (v : Bytes) (opts : Nat)
    (xa : Dict Bytes) (hx : dlookup s.xattrs p = some xa) :
    getxattr (setxattr s p n v opts).1 p n = Except.ok v ∧
    getxattr (removexattr (setxattr s p n v opts).1 p n).1 p n =
      Except.error FsError.ENODATA := by
  have h1 : dlookup (setxattr s p n v opts).1.xattrs p = some (dinsert xa n v) := by
    simp [setxattr, hx, dlookup_dinsert]
  have h2 : dlookup (dinsert xa n v) n = some v := by simp [dlookup_dinsert]
  constructor
  · simp [getxattr, h1, h2]
  · simp [removexattr, h1, h2, getxattr, dlookup_dinsert, dlookup_derase]

/-- C7 (witness): the set/get/remove cycle on the root's xattr set with the
name `user.k`. -/
theorem xattr_set_get_remove_witness :
    getxattr (setxattr (init 0) "/" "user.k" (bytesOfString "v") 0).1 "/" "user.k" =
      Except.ok (bytesOfString "v") ∧
    getxattr (removexattr (setxattr (init 0) "/" "user.k" (bytesOfString "v") 0).1
        "/" "user.k").1 "/" "user.k" =
      Except.error FsError.ENODATA :=
  xattr_set_get_remove (init 0) "/" "user.k" (bytesOfString "v") 0 [] rfl

/-- C8: for a path with blob `blob`, `read(path, size, offset)` returns
`blob[offset : offset + size]` (drop `offset`, take at most `size` bytes),
returns the empty sequence when `offset` is at or past the end of the blob,
and leaves the store unchanged. -/
theorem read_spec (s : MetadataFS) (p : String) (blob : Bytes) (size offset fh : Nat)
    (hd : dlookup s.data p = some blob) :
    (read_fs s p size offset fh).2 = Except.ok ((blob.drop offset).take size) ∧
    ((blob.drop offset).take size).length ≤ size ∧
    (blob.length ≤ offset → (read_fs s p size offset fh).2 = Except.ok []) ∧
    (read_fs s p size offset fh).1 = s := by
  refine ⟨by simp [read_fs, hd], List.length_take_le _ _, ?_, by simp [read_fs, hd]⟩
  intro hoff
  simp [read_fs, hd, List.drop_eq_nil_of_le hoff]

/-- C8 (witness): reading 5 bytes at offset 30 of the 24-byte sample file
returns the empty sequence. -/
theorem read_spec_witness :
    (read_fs (init 0) "/exemplo.txt" 5 30 0).2 =
      Except.ok ((sampleContent.drop 30).take 5) ∧
    ((sampleContent.drop 30).take 5).length ≤ 5 ∧
    (sampleContent.length ≤ 30 →
      (read_fs (init 0) "/exemplo.txt" 5 30 0).2 = Except.ok []) ∧
    (read_fs (init 0) "/exemplo.txt" 5 30 0).1 = init 0 :=
  read_spec (init 0) "/exemplo.txt" sampleContent 5 30 0 rfl

/-- C9: `readdir` ignores its `path` (and `fh`) argument entirely, and its
result consists of `"."`, `".."`, and the first-character-stripped form of
every non-root key of the MetadataTable. -/
theorem readdir_spec (s : MetadataFS) (p q : String) (fh fh2 : Nat) (x : String) :
    readdir s p fh = readdir s q fh2 ∧
    (x ∈ readdir s p fh ↔
      x = "." ∨ x = ".." ∨
      ∃ y, y ∈ s.files.map Prod.fst ∧ y ≠ "/" ∧ x = y.drop 1) := by
  constructor
  · rfl
  · simp [readdir, List.mem_filter, List.mem_map]
    tauto

/-- C10: `unlink` on a path with no metadata record fails before any
mutation: the returned state is exactly the input state (all three tables and
the descriptor counter unchanged), with the `KeyError` failure. -/
theorem unlink_no_mutation_on_missing (s : MetadataFS) (p : String)
    (h : dlookup s.files p = none) :
    unlink s p = (s, Except.error FsError.KeyError) := by
  simp [unlink, dcontains, h]

/-- C10 (witness): unlinking the absent path `/missing` in the initial state. -/
theorem unlink_no_mutation_on_missing_witness :
    unlink (init 0) "/missing" = (init 0, Except.error FsError.KeyError) :=
  unlink_no_mutation_on_missing (init 0) "/missing" rfl
